import Mathlib

/-!
Shallow embedding of the ImpactChain contracts (day2.md):
the ProjectEscrow contract (createProject, donate, verifyMilestone with its
internal releaseFunds step) and the ImpactToken ERC721 contract (safeMint,
Ownable ownership transfer used at setup time to hand mint authority to the
escrow).

Modelling conventions:
- Addresses are natural numbers and 0 is the zero address.
- EVM revert semantics: every entry point returns `Except String Sys`;
  `.error` models a reverted transaction, in which all state writes of the
  call (including events and the reentrancy lock) are undone, so the caller
  keeps the pre-call state.  `txRun` packages this transaction semantics.
- Amounts are unbounded naturals.  Solidity 0.8 checked arithmetic never
  wraps (it reverts on overflow), so no wraparound behaviour exists to model;
  the overflow revert itself, which needs values near 2^256, is outside the
  range the specification quantifies over and is not modelled.
- The environment `Env` carries the facts decided outside the contracts:
  the escrow contract address, which addresses accept a plain value
  transfer, and which addresses accept an ERC721 token
  (IERC721Receiver acceptance).
-/

namespace ImpactChain

/-- Addresses are modelled as naturals; 0 is the zero address. -/
abbrev Address := Nat

/-- The milestone state machine of ProjectEscrow. -/
inductive MilestoneState where
  | Pending
  | Verified
  | Paid
deriving DecidableEq, Repr

/-- Position of a state along the Pending - Verified - Paid order. -/
def MilestoneState.rank : MilestoneState → Nat
  | .Pending => 0
  | .Verified => 1
  | .Paid => 2

/-- The Milestone struct of ProjectEscrow. -/
structure Milestone where
  description : String
  amount : Nat
  state : MilestoneState
deriving DecidableEq, Repr

/-- Default milestone value used for out-of-range reads. -/
def mdefault : Milestone := { description := "", amount := 0, state := .Pending }

/-- The Project struct of ProjectEscrow. -/
structure Project where
  projectId : Nat
  creator : Address
  donor : Address
  totalAmount : Nat
  fundsRaised : Nat
  milestones : List Milestone
  isComplete : Bool
deriving DecidableEq, Repr

/-- The zero-initialised Project a Solidity mapping yields for an
unassigned key. -/
def Project.empty : Project :=
  { projectId := 0, creator := 0, donor := 0, totalAmount := 0,
    fundsRaised := 0, milestones := [], isComplete := false }

/-- State of the ImpactToken ERC721 contract: the Ownable owner
(the mint authority) and the minted tokens with their owners and URIs. -/
structure TokenState where
  authority : Address
  minted : Nat → Option Address
  uris : Nat → Option String

/-- State of the ProjectEscrow contract: Ownable owner, the projects
mapping, the project counter, the ReentrancyGuard status and the native
balance held by the contract. -/
structure EscrowState where
  owner : Address
  projects : Nat → Project
  projectCounter : Nat
  locked : Bool
  balance : Nat

/-- Events emitted by ProjectEscrow. -/
inductive Event where
  | ProjectCreated (pid : Nat) (creator : Address) (total : Nat)
  | DonationReceived (pid : Nat) (donor : Address) (amount : Nat)
  | MilestoneVerified (pid idx : Nat)
  | FundsReleased (pid idx amount : Nat)
deriving DecidableEq, Repr

/-- Whole-system state: both contracts plus the emitted event log. -/
structure Sys where
  escrow : EscrowState
  token : TokenState
  events : List Event

/-- Facts decided outside the two contracts: the escrow contract address
(the msg.sender the token contract sees when the escrow calls it), which
addresses accept a plain value transfer, and which accept an ERC721. -/
structure Env where
  escrowAddr : Address
  acceptsEth : Address → Bool
  acceptsNft : Address → Bool

/-! ### Elementary state updates -/

/-- Write one slot of the projects mapping. -/
def setProject (s : Sys) (pid : Nat) (p : Project) : Sys :=
  { s with escrow :=
    { s.escrow with projects := fun q => if q = pid then p else s.escrow.projects q } }

/-- Overwrite one milestone of one project. -/
def setMilestone (s : Sys) (pid idx : Nat) (m : Milestone) : Sys :=
  setProject s pid
    { s.escrow.projects pid with
      milestones := (s.escrow.projects pid).milestones.set idx m }

/-- The write milestone.state = st of the Solidity code. -/
def setMilestoneState (s : Sys) (pid idx : Nat) (st : MilestoneState) : Sys :=
  setMilestone s pid idx
    { (s.escrow.projects pid).milestones.getD idx mdefault with state := st }

/-- Take the ReentrancyGuard lock. -/
def lockEscrow (s : Sys) : Sys :=
  { s with escrow := { s.escrow with locked := true } }

/-- Release the ReentrancyGuard lock. -/
def unlockEscrow (s : Sys) : Sys :=
  { s with escrow := { s.escrow with locked := false } }

/-- Value arriving with a payable call increases the contract balance. -/
def addBalance (s : Sys) (v : Nat) : Sys :=
  { s with escrow := { s.escrow with balance := s.escrow.balance + v } }

/-- An outgoing value transfer decreases the contract balance. -/
def subBalance (s : Sys) (v : Nat) : Sys :=
  { s with escrow := { s.escrow with balance := s.escrow.balance - v } }

/-- projectCounter++ -/
def bumpCounter (s : Sys) : Sys :=
  { s with escrow := { s.escrow with projectCounter := s.escrow.projectCounter + 1 } }

/-- Append an event to the log. -/
def emitEvent (e : Event) (s : Sys) : Sys :=
  { s with events := s.events ++ [e] }

/-! ### Projection lemmas for the elementary updates -/

@[simp] theorem setProject_owner (s : Sys) (pid : Nat) (p : Project) :
    (setProject s pid p).escrow.owner = s.escrow.owner := rfl
@[simp] theorem setProject_counter (s : Sys) (pid : Nat) (p : Project) :
    (setProject s pid p).escrow.projectCounter = s.escrow.projectCounter := rfl
@[simp] theorem setProject_locked (s : Sys) (pid : Nat) (p : Project) :
    (setProject s pid p).escrow.locked = s.escrow.locked := rfl
@[simp] theorem setProject_balance (s : Sys) (pid : Nat) (p : Project) :
    (setProject s pid p).escrow.balance = s.escrow.balance := rfl
@[simp] theorem setProject_token (s : Sys) (pid : Nat) (p : Project) :
    (setProject s pid p).token = s.token := rfl
@[simp] theorem setProject_events (s : Sys) (pid : Nat) (p : Project) :
    (setProject s pid p).events = s.events := rfl
theorem setProject_projects (s : Sys) (pid : Nat) (p : Project) (q : Nat) :
    (setProject s pid p).escrow.projects q =
      if q = pid then p else s.escrow.projects q := rfl

@[simp] theorem lockEscrow_owner (s : Sys) :
    (lockEscrow s).escrow.owner = s.escrow.owner := rfl
@[simp] theorem lockEscrow_counter (s : Sys) :
    (lockEscrow s).escrow.projectCounter = s.escrow.projectCounter := rfl
@[simp] theorem lockEscrow_locked (s : Sys) :
    (lockEscrow s).escrow.locked = true := rfl
@[simp] theorem lockEscrow_balance (s : Sys) :
    (lockEscrow s).escrow.balance = s.escrow.balance := rfl
@[simp] theorem lockEscrow_token (s : Sys) : (lockEscrow s).token = s.token := rfl
@[simp] theorem lockEscrow_events (s : Sys) : (lockEscrow s).events = s.events := rfl
@[simp] theorem lockEscrow_projects (s : Sys) :
    (lockEscrow s).escrow.projects = s.escrow.projects := rfl

@[simp] theorem unlockEscrow_owner (s : Sys) :
    (unlockEscrow s).escrow.owner = s.escrow.owner := rfl
@[simp] theorem unlockEscrow_counter (s : Sys) :
    (unlockEscrow s).escrow.projectCounter = s.escrow.projectCounter := rfl
@[simp] theorem unlockEscrow_locked (s : Sys) :
    (unlockEscrow s).escrow.locked = false := rfl
@[simp] theorem unlockEscrow_balance (s : Sys) :
    (unlockEscrow s).escrow.balance = s.escrow.balance := rfl
@[simp] theorem unlockEscrow_token (s : Sys) : (unlockEscrow s).token = s.token := rfl
@[simp] theorem unlockEscrow_events (s : Sys) : (unlockEscrow s).events = s.events := rfl
@[simp] theorem unlockEscrow_projects (s : Sys) :
    (unlockEscrow s).escrow.projects = s.escrow.projects := rfl

@[simp] theorem addBalance_owner (s : Sys) (v : Nat) :
    (addBalance s v).escrow.owner = s.escrow.owner := rfl
@[simp] theorem addBalance_counter (s : Sys) (v : Nat) :
    (addBalance s v).escrow.projectCounter = s.escrow.projectCounter := rfl
@[simp] theorem addBalance_locked (s : Sys) (v : Nat) :
    (addBalance s v).escrow.locked = s.escrow.locked := rfl
@[simp] theorem addBalance_balance (s : Sys) (v : Nat) :
    (addBalance s v).escrow.balance = s.escrow.balance + v := rfl
@[simp] theorem addBalance_token (s : Sys) (v : Nat) :
    (addBalance s v).token = s.token := rfl
@[simp] theorem addBalance_events (s : Sys) (v : Nat) :
    (addBalance s v).events = s.events := rfl
@[simp] theorem addBalance_projects (s : Sys) (v : Nat) :
    (addBalance s v).escrow.projects = s.escrow.projects := rfl

@[simp] theorem subBalance_owner (s : Sys) (v : Nat) :
    (subBalance s v).escrow.owner = s.escrow.owner := rfl
@[simp] theorem subBalance_counter (s : Sys) (v : Nat) :
    (subBalance s v).escrow.projectCounter = s.escrow.projectCounter := rfl
@[simp] theorem subBalance_locked (s : Sys) (v : Nat) :
    (subBalance s v).escrow.locked = s.escrow.locked := rfl
@[simp] theorem subBalance_balance (s : Sys) (v : Nat) :
    (subBalance s v).escrow.balance = s.escrow.balance - v := rfl
@[simp] theorem subBalance_token (s : Sys) (v : Nat) :
    (subBalance s v).token = s.token := rfl
@[simp] theorem subBalance_events (s : Sys) (v : Nat) :
    (subBalance s v).events = s.events := rfl
@[simp] theorem subBalance_projects (s : Sys) (v : Nat) :
    (subBalance s v).escrow.projects = s.escrow.projects := rfl

@[simp] theorem bumpCounter_owner (s : Sys) :
    (bumpCounter s).escrow.owner = s.escrow.owner := rfl
@[simp] theorem bumpCounter_counter (s : Sys) :
    (bumpCounter s).escrow.projectCounter = s.escrow.projectCounter + 1 := rfl
@[simp] theorem bumpCounter_locked (s : Sys) :
    (bumpCounter s).escrow.locked = s.escrow.locked := rfl
@[simp] theorem bumpCounter_balance (s : Sys) :
    (bumpCounter s).escrow.balance = s.escrow.balance := rfl
@[simp] theorem bumpCounter_token (s : Sys) : (bumpCounter s).token = s.token := rfl
@[simp] theorem bumpCounter_events (s : Sys) : (bumpCounter s).events = s.events := rfl
@[simp] theorem bumpCounter_projects (s : Sys) :
    (bumpCounter s).escrow.projects = s.escrow.projects := rfl

@[simp] theorem emitEvent_owner (e : Event) (s : Sys) :
    (emitEvent e s).escrow.owner = s.escrow.owner := rfl
@[simp] theorem emitEvent_counter (e : Event) (s : Sys) :
    (emitEvent e s).escrow.projectCounter = s.escrow.projectCounter := rfl
@[simp] theorem emitEvent_locked (e : Event) (s : Sys) :
    (emitEvent e s).escrow.locked = s.escrow.locked := rfl
@[simp] theorem emitEvent_balance (e : Event) (s : Sys) :
    (emitEvent e s).escrow.balance = s.escrow.balance := rfl
@[simp] theorem emitEvent_token (e : Event) (s : Sys) :
    (emitEvent e s).token = s.token := rfl
@[simp] theorem emitEvent_events (e : Event) (s : Sys) :
    (emitEvent e s).events = s.events ++ [e] := rfl
@[simp] theorem emitEvent_projects (e : Event) (s : Sys) :
    (emitEvent e s).escrow.projects = s.escrow.projects := rfl

@[simp] theorem setMilestoneState_owner (s : Sys) (pid idx : Nat) (st : MilestoneState) :
    (setMilestoneState s pid idx st).escrow.owner = s.escrow.owner := rfl
@[simp] theorem setMilestoneState_counter (s : Sys) (pid idx : Nat) (st : MilestoneState) :
    (setMilestoneState s pid idx st).escrow.projectCounter = s.escrow.projectCounter := rfl
@[simp] theorem setMilestoneState_locked (s : Sys) (pid idx : Nat) (st : MilestoneState) :
    (setMilestoneState s pid idx st).escrow.locked = s.escrow.locked := rfl
@[simp] theorem setMilestoneState_balance (s : Sys) (pid idx : Nat) (st : MilestoneState) :
    (setMilestoneState s pid idx st).escrow.balance = s.escrow.balance := rfl
@[simp] theorem setMilestoneState_token (s : Sys) (pid idx : Nat) (st : MilestoneState) :
    (setMilestoneState s pid idx st).token = s.token := rfl
@[simp] theorem setMilestoneState_events (s : Sys) (pid idx : Nat) (st : MilestoneState) :
    (setMilestoneState s pid idx st).events = s.events := rfl

/-! ### The contract entry points -/

/-- ProjectEscrow.createProject: open to any caller; requires a nonzero NGO
address, equal-length nonempty milestone arrays and positive amounts;
allocates the project at the current counter with all milestones Pending and
totalAmount the sum of the amounts, then increments the counter. -/
def createProject (s : Sys) (ngo : Address) (amts : List Nat)
    (descs : List String) : Except String Sys :=
  if ngo = 0 then .error "Invalid NGO address"
  else if amts.length = descs.length then
    if amts.length = 0 then .error "Project must have at least one milestone"
    else if amts.all (fun a => 0 < a) then
      let pid := s.escrow.projectCounter
      let p : Project :=
        { projectId := pid, creator := ngo, donor := 0,
          totalAmount := amts.sum, fundsRaised := 0,
          milestones := List.zipWith
            (fun a d => { description := d, amount := a, state := .Pending })
            amts descs,
          isComplete := false }
      .ok (emitEvent (.ProjectCreated pid ngo amts.sum)
            (bumpCounter (setProject s pid p)))
    else .error "Milestone amount must be positive"
  else .error "Input array length mismatch"

/-- ProjectEscrow.donate: payable, nonReentrant; requires an existing
project, no recorded donor, and msg.value equal to totalAmount; records the
caller as donor and sets fundsRaised to the deposited value. -/
def donate (s : Sys) (sender : Address) (pid : Nat) (value : Nat) :
    Except String Sys :=
  if s.escrow.locked then .error "ReentrancyGuard: reentrant call"
  else
    let p := s.escrow.projects pid
    if p.creator = 0 then .error "Project does not exist"
    else if p.donor = 0 then
      if value = p.totalAmount then
        .ok (emitEvent (.DonationReceived pid sender value)
              (setProject (addBalance s value) pid
                { p with fundsRaised := value, donor := sender }))
      else .error "Donation must match total project amount"
    else .error "Project already funded"

/-- ImpactToken.safeMint: onlyOwner; ERC721 safeMint requires a nonzero
recipient, an unminted tokenId and IERC721Receiver acceptance by the
recipient, then records the new token and its URI. -/
def safeMint (env : Env) (t : TokenState) (caller recipient tokenId : Nat)
    (uri : String) : Except String TokenState :=
  if caller = t.authority then
    if recipient = 0 then .error "ERC721InvalidReceiver"
    else
      match t.minted tokenId with
      | some _ => .error "ERC721InvalidSender"
      | none =>
        if env.acceptsNft recipient then
          .ok { t with
                minted := fun i => if i = tokenId then some recipient else t.minted i,
                uris := fun i => if i = tokenId then some uri else t.uris i }
        else .error "ERC721InvalidReceiver"
  else .error "OwnableUnauthorizedAccount"

/-- Ownable.transferOwnership on ImpactToken: the setup step that hands the
mint authority to the escrow; only the current authority may call it and
the new owner must be nonzero. -/
def transferOwnershipTok (t : TokenState) (caller newOwner : Address) :
    Except String TokenState :=
  if caller = t.authority then
    if newOwner = 0 then .error "OwnableInvalidOwner"
    else .ok { t with authority := newOwner }
  else .error "OwnableUnauthorizedAccount"

/-- ProjectEscrow.constructTokenURI: constant demo URI. -/
def constructTokenURI (_pid : Nat) : String :=
  "https://api.jsonbin.io/v3/b/6... (replace with your hosted JSON)"

/-- The system state at the moment verifyMilestone performs the external
value transfer inside releaseFunds: the ReentrancyGuard lock is held and
the milestone has just been written Verified and its event emitted. -/
def verifiedMidState (s : Sys) (pid idx : Nat) : Sys :=
  emitEvent (.MilestoneVerified pid idx)
    (setMilestoneState (lockEscrow s) pid idx .Verified)

/-- ProjectEscrow.releaseFunds (internal): transfers milestone.amount to the
creator (the low-level call succeeds iff the creator accepts value and the
contract balance covers the amount; failure reverts the whole call), marks
the milestone Paid, emits FundsReleased, and on the final milestone index
sets isComplete and mints the certificate to the donor. -/
def releaseFunds (env : Env) (s : Sys) (pid idx : Nat) : Except String Sys :=
  let p := s.escrow.projects pid
  let m := p.milestones.getD idx mdefault
  if env.acceptsEth p.creator = true ∧ m.amount ≤ s.escrow.balance then
    let s1 := emitEvent (.FundsReleased pid idx m.amount)
      (setMilestoneState (subBalance s m.amount) pid idx .Paid)
    if idx = p.milestones.length - 1 then
      let s2 := setProject s1 pid { s1.escrow.projects pid with isComplete := true }
      match safeMint env s2.token env.escrowAddr p.donor pid (constructTokenURI pid) with
      | .ok t => .ok { s2 with token := t }
      | .error e => .error e
    else .ok s1
  else .error "Fund transfer failed."

/-- ProjectEscrow.verifyMilestone: onlyOwner, nonReentrant; requires an
existing project, an in-range index and a Pending milestone; writes
Verified, emits MilestoneVerified, and runs releaseFunds; the lock is
released when the call completes. -/
def verifyMilestone (env : Env) (s : Sys) (sender : Address) (pid idx : Nat) :
    Except String Sys :=
  if sender = s.escrow.owner then
    if s.escrow.locked then .error "ReentrancyGuard: reentrant call"
    else
      let p := s.escrow.projects pid
      if p.creator = 0 then .error "Project does not exist"
      else if idx < p.milestones.length then
        if (p.milestones.getD idx mdefault).state = .Pending then
          match releaseFunds env (verifiedMidState s pid idx) pid idx with
          | .ok s1 => .ok (unlockEscrow s1)
          | .error e => .error e
        else .error "Milestone not pending verification"
      else .error "Invalid milestone index"
  else .error "OwnableUnauthorizedAccount"

/-! ### External operations and transaction semantics -/

/-- The external entry points of the deployed system. -/
inductive Op where
  | create (ngo : Address) (amts : List Nat) (descs : List String)
  | donate (sender : Address) (pid value : Nat)
  | verify (sender : Address) (pid idx : Nat)
  | mint (caller recipient tokenId : Nat) (uri : String)
  | transferAuth (caller newOwner : Address)

/-- One external call applied to the system. -/
def step (env : Env) (s : Sys) : Op → Except String Sys
  | .create ngo amts descs => createProject s ngo amts descs
  | .donate sender pid value => donate s sender pid value
  | .verify sender pid idx => verifyMilestone env s sender pid idx
  | .mint caller recipient tokenId uri =>
    match safeMint env s.token caller recipient tokenId uri with
    | .ok t => .ok { s with token := t }
    | .error e => .error e
  | .transferAuth caller newOwner =>
    match transferOwnershipTok s.token caller newOwner with
    | .ok t => .ok { s with token := t }
    | .error e => .error e

/-- Transaction semantics: a reverted call leaves the state unchanged. -/
def txRun (env : Env) (s : Sys) (op : Op) : Sys :=
  match step env s op with
  | .ok s1 => s1
  | .error _ => s

/-- State right after deployment and setup: no projects, counter 0,
unlocked, no balance, mint authority already transferred to the escrow
address, no token minted, no events. -/
def initSys (owner escrowAddr : Address) : Sys :=
  { escrow := { owner := owner, projects := fun _ => Project.empty,
                projectCounter := 0, locked := false, balance := 0 },
    token := { authority := escrowAddr, minted := fun _ => none,
               uris := fun _ => none },
    events := [] }

/-- States reachable from deployment by successful external calls. -/
inductive Reachable (owner escrowAddr : Address) : Sys → Prop where
  | init : Reachable owner escrowAddr (initSys owner escrowAddr)
  | next (s s1 : Sys) (env : Env) (op : Op) :
      Reachable owner escrowAddr s → step env s op = .ok s1 →
      Reachable owner escrowAddr s1

/-- The state of milestone idx of project pid. -/
def mstate (s : Sys) (pid idx : Nat) : MilestoneState :=
  ((s.escrow.projects pid).milestones.getD idx mdefault).state

/-! ### List helpers -/

theorem getD_set_self {α : Type} (l : List α) (i : Nat) (a d : α)
    (h : i < l.length) : (l.set i a).getD i d = a := by
  simp [List.getD_eq_getElem?_getD, List.getElem?_set, h]

theorem getD_set_ne {α : Type} (l : List α) (i j : Nat) (a d : α)
    (h : i ≠ j) : (l.set i a).getD j d = l.getD j d := by
  simp [List.getD_eq_getElem?_getD, List.getElem?_set, h]

/-! ### Characterisation of the success case of each entry point -/

/-- Everything a successful donate implies: the guard was free, the project
existed and was unfunded, the value matched, and the result state records the
donor and the deposit. -/
theorem donate_ok {s : Sys} {sender pid value : Nat} {s1 : Sys}
    (h : donate s sender pid value = .ok s1) :
    s.escrow.locked = false ∧
    (s.escrow.projects pid).creator ≠ 0 ∧
    (s.escrow.projects pid).donor = 0 ∧
    value = (s.escrow.projects pid).totalAmount ∧
    s1 = emitEvent (.DonationReceived pid sender value)
      (setProject (addBalance s value) pid
        { s.escrow.projects pid with fundsRaised := value, donor := sender }) := by
  unfold donate at h
  dsimp only at h
  split at h
  · exact absurd h (by simp)
  · next hlock =>
    split at h
    · exact absurd h (by simp)
    · next hcre =>
      split at h
      · next hdon =>
        split at h
        · next hval =>
          refine ⟨by simpa using hlock, hcre, hdon, hval, ?_⟩
          exact (Except.ok.injEq _ _).mp h.symm
        · exact absurd h (by simp)
      · exact absurd h (by simp)

/-- Running donate when its preconditions hold. -/
theorem donate_run {s : Sys} {sender pid value : Nat}
    (hlock : s.escrow.locked = false)
    (hcre : (s.escrow.projects pid).creator ≠ 0)
    (hdon : (s.escrow.projects pid).donor = 0)
    (hval : value = (s.escrow.projects pid).totalAmount) :
    donate s sender pid value =
      .ok (emitEvent (.DonationReceived pid sender value)
        (setProject (addBalance s value) pid
          { s.escrow.projects pid with fundsRaised := value, donor := sender })) := by
  unfold donate
  simp [hlock, hcre, hdon, hval]

/-- An Except value that is never ok is an error. -/
theorem error_of_not_ok {ε α : Type} {r : Except ε α}
    (h : ∀ a, r ≠ .ok a) : ∃ e, r = .error e := by
  cases r with
  | ok a => exact absurd rfl (h a)
  | error e => exact ⟨e, rfl⟩

/-- Everything a successful createProject implies: the input checks passed
and the result state holds the new project at the old counter. -/
theorem create_ok {s : Sys} {ngo : Nat} {amts : List Nat}
    {descs : List String} {s1 : Sys}
    (h : createProject s ngo amts descs = .ok s1) :
    ngo ≠ 0 ∧ amts.length = descs.length ∧ amts.length ≠ 0 ∧
    (∀ a ∈ amts, 0 < a) ∧
    s1 = emitEvent (.ProjectCreated s.escrow.projectCounter ngo amts.sum)
      (bumpCounter (setProject s s.escrow.projectCounter
        { projectId := s.escrow.projectCounter, creator := ngo, donor := 0,
          totalAmount := amts.sum, fundsRaised := 0,
          milestones := List.zipWith
            (fun a d => { description := d, amount := a, state := .Pending })
            amts descs,
          isComplete := false })) := by
  unfold createProject at h
  dsimp only at h
  split at h
  · exact absurd h (by simp)
  · next hngo =>
    split at h
    · next hlen =>
      split at h
      · exact absurd h (by simp)
      · next hne =>
        split at h
        · next hall =>
          refine ⟨hngo, hlen, hne, ?_, ?_⟩
          · simpa using hall
          · exact (Except.ok.injEq _ _).mp h.symm
        · exact absurd h (by simp)
    · exact absurd h (by simp)

/-- Running createProject when its preconditions hold. -/
theorem create_run {s : Sys} {ngo : Nat} {amts : List Nat} {descs : List String}
    (h1 : ngo ≠ 0) (h2 : amts.length = descs.length)
    (h3 : amts.length ≠ 0) (h4 : ∀ a ∈ amts, 0 < a) :
    createProject s ngo amts descs =
      .ok (emitEvent (.ProjectCreated s.escrow.projectCounter ngo amts.sum)
        (bumpCounter (setProject s s.escrow.projectCounter
          { projectId := s.escrow.projectCounter, creator := ngo, donor := 0,
            totalAmount := amts.sum, fundsRaised := 0,
            milestones := List.zipWith
              (fun a d => { description := d, amount := a, state := .Pending })
              amts descs,
            isComplete := false }))) := by
  unfold createProject
  have hd : descs ≠ [] := by
    intro he
    apply h3
    rw [he] at h2
    simpa using h2
  simp [h1, h2, h3, hd, List.all_eq_true, h4]
  intro hmem
  exact absurd (h4 0 hmem) (lt_irrefl 0)

/-- Everything a successful safeMint implies. -/
theorem safeMint_ok {env : Env} {t : TokenState}
    {caller recipient tokenId : Nat} {uri : String} {t1 : TokenState}
    (h : safeMint env t caller recipient tokenId uri = .ok t1) :
    caller = t.authority ∧ recipient ≠ 0 ∧ t.minted tokenId = none ∧
    env.acceptsNft recipient = true ∧
    t1.authority = t.authority ∧
    t1.minted = (fun i => if i = tokenId then some recipient else t.minted i) := by
  unfold safeMint at h
  split at h
  · next hc =>
    split at h
    · exact absurd h (by simp)
    · next hrec =>
      split at h
      · exact absurd h (by simp)
      · next hm =>
        split at h
        · next hacc =>
          have h1 := (Except.ok.injEq _ _).mp h
          exact ⟨hc, hrec, hm, hacc, by rw [← h1], by rw [← h1]⟩
        · exact absurd h (by simp)
  · exact absurd h (by simp)

/-- Running safeMint when its preconditions hold. -/
theorem safeMint_run {env : Env} {t : TokenState}
    {caller recipient tokenId : Nat} {uri : String}
    (h1 : caller = t.authority) (h2 : recipient ≠ 0)
    (h3 : t.minted tokenId = none) (h4 : env.acceptsNft recipient = true) :
    safeMint env t caller recipient tokenId uri =
      .ok { t with
            minted := fun i => if i = tokenId then some recipient else t.minted i,
            uris := fun i => if i = tokenId then some uri else t.uris i } := by
  unfold safeMint
  simp [h1, h2, h3, h4]

/-- Everything a successful ownership transfer on the token implies. -/
theorem transferAuth_ok {t : TokenState} {caller newOwner : Nat} {t1 : TokenState}
    (h : transferOwnershipTok t caller newOwner = .ok t1) :
    caller = t.authority ∧ newOwner ≠ 0 ∧
    t1 = { t with authority := newOwner } := by
  unfold transferOwnershipTok at h
  split at h
  · next hc =>
    split at h
    · exact absurd h (by simp)
    · next hn => exact ⟨hc, hn, (Except.ok.injEq _ _).mp h.symm⟩
  · exact absurd h (by simp)

/-! ### Fields of the mid-call state of verifyMilestone -/

theorem mid_owner (s : Sys) (pid idx : Nat) :
    (verifiedMidState s pid idx).escrow.owner = s.escrow.owner := rfl

theorem mid_locked (s : Sys) (pid idx : Nat) :
    (verifiedMidState s pid idx).escrow.locked = true := rfl

theorem mid_counter (s : Sys) (pid idx : Nat) :
    (verifiedMidState s pid idx).escrow.projectCounter = s.escrow.projectCounter := rfl

theorem mid_balance (s : Sys) (pid idx : Nat) :
    (verifiedMidState s pid idx).escrow.balance = s.escrow.balance := rfl

theorem mid_token (s : Sys) (pid idx : Nat) :
    (verifiedMidState s pid idx).token = s.token := rfl

theorem mid_events (s : Sys) (pid idx : Nat) :
    (verifiedMidState s pid idx).events = s.events ++ [.MilestoneVerified pid idx] := rfl

theorem mid_projects_ne (s : Sys) (pid idx q : Nat) (h : q ≠ pid) :
    (verifiedMidState s pid idx).escrow.projects q = s.escrow.projects q := by
  simp [verifiedMidState, emitEvent, setMilestoneState, setMilestone, setProject,
    lockEscrow, h]

theorem mid_projects_self (s : Sys) (pid idx : Nat) :
    (verifiedMidState s pid idx).escrow.projects pid =
      { s.escrow.projects pid with
        milestones := (s.escrow.projects pid).milestones.set idx
          { (s.escrow.projects pid).milestones.getD idx mdefault with
            state := .Verified } } := by
  simp [verifiedMidState, emitEvent, setMilestoneState, setMilestone, setProject,
    lockEscrow]

/-- Everything a successful releaseFunds implies, stated field by field. -/
theorem release_ok {env : Env} {s : Sys} {pid idx : Nat} {s1 : Sys}
    (h : releaseFunds env s pid idx = .ok s1) :
    env.acceptsEth (s.escrow.projects pid).creator = true ∧
    ((s.escrow.projects pid).milestones.getD idx mdefault).amount ≤ s.escrow.balance ∧
    s1.escrow.owner = s.escrow.owner ∧
    s1.escrow.projectCounter = s.escrow.projectCounter ∧
    s1.escrow.locked = s.escrow.locked ∧
    s1.escrow.balance =
      s.escrow.balance - ((s.escrow.projects pid).milestones.getD idx mdefault).amount ∧
    (∀ q, q ≠ pid → s1.escrow.projects q = s.escrow.projects q) ∧
    (s1.escrow.projects pid).creator = (s.escrow.projects pid).creator ∧
    (s1.escrow.projects pid).donor = (s.escrow.projects pid).donor ∧
    (s1.escrow.projects pid).totalAmount = (s.escrow.projects pid).totalAmount ∧
    (s1.escrow.projects pid).fundsRaised = (s.escrow.projects pid).fundsRaised ∧
    (s1.escrow.projects pid).projectId = (s.escrow.projects pid).projectId ∧
    (s1.escrow.projects pid).milestones = (s.escrow.projects pid).milestones.set idx
      { (s.escrow.projects pid).milestones.getD idx mdefault with state := .Paid } ∧
    (s1.escrow.projects pid).isComplete =
      (if idx = (s.escrow.projects pid).milestones.length - 1 then true
       else (s.escrow.projects pid).isComplete) ∧
    s1.events = s.events ++
      [.FundsReleased pid idx ((s.escrow.projects pid).milestones.getD idx mdefault).amount] ∧
    ((idx ≠ (s.escrow.projects pid).milestones.length - 1 ∧ s1.token = s.token) ∨
     (idx = (s.escrow.projects pid).milestones.length - 1 ∧
      env.escrowAddr = s.token.authority ∧
      (s.escrow.projects pid).donor ≠ 0 ∧
      s.token.minted pid = none ∧
      env.acceptsNft (s.escrow.projects pid).donor = true ∧
      s1.token.authority = s.token.authority ∧
      s1.token.minted =
        fun i => if i = pid then some ((s.escrow.projects pid).donor)
                 else s.token.minted i)) := by
  unfold releaseFunds at h
  dsimp only at h
  split at h
  · next htr =>
    split at h
    · next hfin =>
      -- final milestone: the mint call must have gone through
      split at h
      · next t hm =>
        have h1 := (Except.ok.injEq _ _).mp h
        have hmk := safeMint_ok hm
        subst h1
        refine ⟨htr.1, htr.2, rfl, rfl, rfl, rfl,
          fun q hq => by
            simp [emitEvent, setMilestoneState, setMilestone, setProject,
              subBalance, hq],
          by simp [emitEvent, setMilestoneState, setMilestone, setProject, subBalance],
          by simp [emitEvent, setMilestoneState, setMilestone, setProject, subBalance],
          by simp [emitEvent, setMilestoneState, setMilestone, setProject, subBalance],
          by simp [emitEvent, setMilestoneState, setMilestone, setProject, subBalance],
          by simp [emitEvent, setMilestoneState, setMilestone, setProject, subBalance],
          by simp [emitEvent, setMilestoneState, setMilestone, setProject, subBalance],
          by simp [emitEvent, setMilestoneState, setMilestone, setProject, subBalance,
            hfin],
          rfl, Or.inr ⟨hfin, hmk.1, hmk.2.1, hmk.2.2.1, hmk.2.2.2.1,
            hmk.2.2.2.2.1, hmk.2.2.2.2.2⟩⟩
      · exact absurd h (by simp)
    · next hfin =>
      have h1 := (Except.ok.injEq _ _).mp h
      subst h1
      refine ⟨htr.1, htr.2, rfl, rfl, rfl, rfl,
        fun q hq => by
          simp [emitEvent, setMilestoneState, setMilestone, setProject,
            subBalance, hq],
        by simp [emitEvent, setMilestoneState, setMilestone, setProject, subBalance],
        by simp [emitEvent, setMilestoneState, setMilestone, setProject, subBalance],
        by simp [emitEvent, setMilestoneState, setMilestone, setProject, subBalance],
        by simp [emitEvent, setMilestoneState, setMilestone, setProject, subBalance],
        by simp [emitEvent, setMilestoneState, setMilestone, setProject, subBalance],
        by simp [emitEvent, setMilestoneState, setMilestone, setProject, subBalance],
        by simp [emitEvent, setMilestoneState, setMilestone, setProject, subBalance,
          hfin],
        rfl, Or.inl ⟨hfin, rfl⟩⟩
  · exact absurd h (by simp)

/-- Everything a successful verifyMilestone implies, stated field by field
over the pre-call state. -/
theorem verify_ok {env : Env} {s : Sys} {sender pid idx : Nat} {s1 : Sys}
    (h : verifyMilestone env s sender pid idx = .ok s1) :
    sender = s.escrow.owner ∧
    s.escrow.locked = false ∧
    (s.escrow.projects pid).creator ≠ 0 ∧
    idx < (s.escrow.projects pid).milestones.length ∧
    mstate s pid idx = .Pending ∧
    env.acceptsEth (s.escrow.projects pid).creator = true ∧
    ((s.escrow.projects pid).milestones.getD idx mdefault).amount ≤ s.escrow.balance ∧
    s1.escrow.owner = s.escrow.owner ∧
    s1.escrow.projectCounter = s.escrow.projectCounter ∧
    s1.escrow.locked = false ∧
    s1.escrow.balance =
      s.escrow.balance - ((s.escrow.projects pid).milestones.getD idx mdefault).amount ∧
    (∀ q, q ≠ pid → s1.escrow.projects q = s.escrow.projects q) ∧
    (s1.escrow.projects pid).creator = (s.escrow.projects pid).creator ∧
    (s1.escrow.projects pid).donor = (s.escrow.projects pid).donor ∧
    (s1.escrow.projects pid).totalAmount = (s.escrow.projects pid).totalAmount ∧
    (s1.escrow.projects pid).fundsRaised = (s.escrow.projects pid).fundsRaised ∧
    (s1.escrow.projects pid).milestones = (s.escrow.projects pid).milestones.set idx
      { (s.escrow.projects pid).milestones.getD idx mdefault with state := .Paid } ∧
    (s1.escrow.projects pid).isComplete =
      (if idx = (s.escrow.projects pid).milestones.length - 1 then true
       else (s.escrow.projects pid).isComplete) ∧
    s1.events = s.events ++ [.MilestoneVerified pid idx,
      .FundsReleased pid idx ((s.escrow.projects pid).milestones.getD idx mdefault).amount] ∧
    ((idx ≠ (s.escrow.projects pid).milestones.length - 1 ∧ s1.token = s.token) ∨
     (idx = (s.escrow.projects pid).milestones.length - 1 ∧
      env.escrowAddr = s.token.authority ∧
      (s.escrow.projects pid).donor ≠ 0 ∧
      s.token.minted pid = none ∧
      env.acceptsNft (s.escrow.projects pid).donor = true ∧
      s1.token.authority = s.token.authority ∧
      s1.token.minted =
        fun i => if i = pid then some ((s.escrow.projects pid).donor)
                 else s.token.minted i)) := by
  unfold verifyMilestone at h
  dsimp only at h
  split at h
  · next hsend =>
    split at h
    · exact absurd h (by simp)
    · next hlock =>
      split at h
      · exact absurd h (by simp)
      · next hcre =>
        split at h
        · next hidx =>
          split at h
          · next hpend =>
            split at h
            · next s2 hrel =>
              have h1 := (Except.ok.injEq _ _).mp h
              have R := release_ok hrel
              have hg : ((s.escrow.projects pid).milestones.set idx
                  { (s.escrow.projects pid).milestones.getD idx mdefault with
                    state := .Verified }).getD idx mdefault =
                  { (s.escrow.projects pid).milestones.getD idx mdefault with
                    state := .Verified } :=
                getD_set_self _ _ _ _ hidx
              simp only [mid_projects_self, mid_projects_ne, mid_token, mid_balance,
                mid_owner, mid_counter, mid_events, hg, List.length_set,
                List.set_set] at R
              obtain ⟨R1, R2, R3, R4, R5, R6, R7, R8, R9, R10, R11, R12, R13,
                R14, R15⟩ := R
              subst h1
              refine ⟨hsend, by simpa using hlock, hcre, hidx, hpend, ?_⟩
              refine ⟨by simpa using R1, by simpa using R2, ?_⟩
              refine ⟨R3, R4, rfl, by simpa using R6, ?_⟩
              refine ⟨fun q hq => by rw [show (unlockEscrow s2).escrow.projects q =
                  s2.escrow.projects q from rfl, R7 q hq, mid_projects_ne s pid idx q hq],
                ?_⟩
              refine ⟨by simpa using R8, by simpa using R9, by simpa using R10,
                by simpa using R11, by simpa using R13, by simpa using R14, ?_, ?_⟩
              · show s2.events = _
                rw [R15.1]
                simp
              · rcases R15.2 with ⟨hfin, htok⟩ | ⟨hfin, hrest⟩
                · exact Or.inl ⟨by simpa using hfin, htok⟩
                · exact Or.inr ⟨by simpa using hfin, by simpa using hrest⟩
            · exact absurd h (by simp)
          · exact absurd h (by simp)
        · exact absurd h (by simp)
  · exact absurd h (by simp)

/-- Running verifyMilestone when its preconditions hold; the final-milestone
mint preconditions are only needed when the index is the last one. -/
theorem verify_run {env : Env} {s : Sys} {sender pid idx : Nat}
    (hsend : sender = s.escrow.owner)
    (hlock : s.escrow.locked = false)
    (hcre : (s.escrow.projects pid).creator ≠ 0)
    (hidx : idx < (s.escrow.projects pid).milestones.length)
    (hpend : mstate s pid idx = .Pending)
    (heth : env.acceptsEth (s.escrow.projects pid).creator = true)
    (hbal : ((s.escrow.projects pid).milestones.getD idx mdefault).amount ≤
      s.escrow.balance)
    (hfin : idx = (s.escrow.projects pid).milestones.length - 1 →
      env.escrowAddr = s.token.authority ∧ (s.escrow.projects pid).donor ≠ 0 ∧
      s.token.minted pid = none ∧
      env.acceptsNft (s.escrow.projects pid).donor = true) :
    ∃ s1, verifyMilestone env s sender pid idx = .ok s1 := by
  have hrel : ∃ s2, releaseFunds env (verifiedMidState s pid idx) pid idx = .ok s2 := by
    unfold releaseFunds
    simp only [mid_projects_self, mid_balance, mid_token]
    rw [getD_set_self _ _ _ _ hidx, List.length_set]
    by_cases hf : idx = (s.escrow.projects pid).milestones.length - 1
    · obtain ⟨ha, hd, hm, hn⟩ := hfin hf
      rw [if_pos ⟨heth, hbal⟩, if_pos hf]
      simp only [setProject_token, emitEvent_token, setMilestoneState_token,
        subBalance_token, mid_token]
      rw [safeMint_run ha hd hm hn]
      exact ⟨_, rfl⟩
    · rw [if_pos ⟨heth, hbal⟩, if_neg hf]
      exact ⟨_, rfl⟩
  obtain ⟨s2, hrel⟩ := hrel
  refine ⟨unlockEscrow s2, ?_⟩
  have hpend1 : ((s.escrow.projects pid).milestones.getD idx mdefault).state =
      .Pending := hpend
  unfold verifyMilestone
  dsimp only
  rw [if_pos hsend, if_neg (by simp [hlock]), if_neg hcre, if_pos hidx,
    if_pos hpend1, hrel]

/-! ### Transaction semantics and failure lemmas -/

theorem txRun_of_ok {env : Env} {s : Sys} {op : Op} {s1 : Sys}
    (h : step env s op = .ok s1) : txRun env s op = s1 := by
  unfold txRun
  rw [h]

theorem txRun_of_error {env : Env} {s : Sys} {op : Op} {e : String}
    (h : step env s op = .error e) : txRun env s op = s := by
  unfold txRun
  rw [h]

/-- A verifyMilestone call by anyone but the owner reverts at the
onlyOwner check. -/
theorem verify_fail_not_owner {env : Env} {s : Sys} {sender pid idx : Nat}
    (h : sender ≠ s.escrow.owner) :
    verifyMilestone env s sender pid idx = .error "OwnableUnauthorizedAccount" := by
  unfold verifyMilestone
  rw [if_neg h]

/-- A donate call while the ReentrancyGuard is held reverts at the guard. -/
theorem donate_fail_locked {s : Sys} {sender pid value : Nat}
    (h : s.escrow.locked = true) :
    donate s sender pid value = .error "ReentrancyGuard: reentrant call" := by
  unfold donate
  rw [if_pos h]

/-- A verifyMilestone call while the ReentrancyGuard is held reverts:
either at the onlyOwner check or at the guard. -/
theorem verify_fail_locked {env : Env} {s : Sys} {sender pid idx : Nat}
    (h : s.escrow.locked = true) :
    ∃ e, verifyMilestone env s sender pid idx = .error e := by
  refine error_of_not_ok fun s1 hok => ?_
  have := (verify_ok hok).2.1
  rw [h] at this
  exact absurd this (by simp)

/-- If the value transfer inside releaseFunds fails, verifyMilestone reverts
with the transfer-failure reason. -/
theorem verify_fail_transfer {env : Env} {s : Sys} {sender pid idx : Nat}
    (hsend : sender = s.escrow.owner)
    (hlock : s.escrow.locked = false)
    (hcre : (s.escrow.projects pid).creator ≠ 0)
    (hidx : idx < (s.escrow.projects pid).milestones.length)
    (hpend : mstate s pid idx = .Pending)
    (hfail : ¬(env.acceptsEth (s.escrow.projects pid).creator = true ∧
      ((s.escrow.projects pid).milestones.getD idx mdefault).amount ≤
        s.escrow.balance)) :
    verifyMilestone env s sender pid idx = .error "Fund transfer failed." := by
  have hpend1 : ((s.escrow.projects pid).milestones.getD idx mdefault).state =
      .Pending := hpend
  unfold verifyMilestone
  dsimp only
  rw [if_pos hsend, if_neg (by simp [hlock]), if_neg hcre, if_pos hidx,
    if_pos hpend1]
  have hrel : releaseFunds env (verifiedMidState s pid idx) pid idx =
      .error "Fund transfer failed." := by
    unfold releaseFunds
    simp only [mid_projects_self, mid_balance, mid_token]
    rw [getD_set_self _ _ _ _ hidx]
    exact if_neg (by simpa using hfail)
  rw [hrel]

/-! ### The freshness invariant of reachable states -/

/-- Every projects slot at or above the counter is still zero-initialised. -/
def Fresh (s : Sys) : Prop :=
  ∀ pid, s.escrow.projectCounter ≤ pid → s.escrow.projects pid = Project.empty

theorem fresh_init (o a : Address) : Fresh (initSys o a) := fun _ _ => rfl

theorem fresh_step {env : Env} {s : Sys} {op : Op} {s1 : Sys}
    (hF : Fresh s) (h : step env s op = .ok s1) : Fresh s1 := by
  cases op with
  | create ngo amts descs =>
    obtain ⟨-, -, -, -, hs1⟩ := create_ok h
    intro q hq
    subst hs1
    simp only [emitEvent_counter, bumpCounter_counter, setProject_counter] at hq
    simp only [emitEvent_projects, bumpCounter_projects, setProject_projects]
    rw [if_neg (by omega)]
    exact hF q (by omega)
  | donate sender pid value =>
    obtain ⟨-, hcre, -, -, hs1⟩ := donate_ok h
    intro q hq
    subst hs1
    simp only [emitEvent_counter, setProject_counter, addBalance_counter] at hq
    simp only [emitEvent_projects, setProject_projects, addBalance_projects]
    have hq0 : s.escrow.projects q = Project.empty := hF q hq
    by_cases hqp : q = pid
    · subst hqp
      rw [hq0] at hcre
      exact absurd rfl hcre
    · rw [if_neg hqp]
      exact hq0
  | verify sender pid idx =>
    have V := verify_ok h
    intro q hq
    rw [V.2.2.2.2.2.2.2.2.1] at hq
    have hq0 : s.escrow.projects q = Project.empty := hF q hq
    by_cases hqp : q = pid
    · subst hqp
      rw [hq0] at V
      exact absurd rfl V.2.2.1
    · rw [V.2.2.2.2.2.2.2.2.2.2.2.1 q hqp]
      exact hq0
  | mint caller recipient tokenId uri =>
    intro q hq
    simp only [step] at h
    split at h
    · next t hm =>
      have h1 := (Except.ok.injEq _ _).mp h
      subst h1
      exact hF q hq
    · exact absurd h (by simp)
  | transferAuth caller newOwner =>
    intro q hq
    simp only [step] at h
    split at h
    · next t hm =>
      have h1 := (Except.ok.injEq _ _).mp h
      subst h1
      exact hF q hq
    · exact absurd h (by simp)

theorem reachable_fresh {o a : Address} {s : Sys} (h : Reachable o a s) :
    Fresh s := by
  induction h with
  | init => exact fresh_init o a
  | next s s1 env op _ hstep ih => exact fresh_step ih hstep

/-! ### Small helpers about milestone lists -/

theorem rank_le_two (st : MilestoneState) : st.rank ≤ 2 := by
  cases st <;> simp [MilestoneState.rank]

theorem zip_pending (amts : List Nat) (descs : List String) :
    ∀ m ∈ List.zipWith
      (fun a d => ({ description := d, amount := a, state := .Pending } : Milestone))
      amts descs, m.state = .Pending := by
  induction amts generalizing descs with
  | nil => simp
  | cons a as ih =>
    cases descs with
    | nil => simp
    | cons d ds =>
      intro m hm
      rcases List.mem_cons.mp hm with hm | hm
      · rw [hm]
      · exact ih ds m hm

/-! ### Concrete states used by the witnesses -/

/-- Benign environment: escrow deployed at address 2, everyone accepts
value and tokens. -/
def envW : Env :=
  { escrowAddr := 2, acceptsEth := fun _ => true, acceptsNft := fun _ => true }

/-- Environment in which no address accepts a plain value transfer. -/
def envFailEth : Env :=
  { escrowAddr := 2, acceptsEth := fun _ => false, acceptsNft := fun _ => true }

/-- Deployed system: owner 1, escrow address 2. -/
def sInit : Sys := initSys 1 2

/-- Project 0 created: creator 3, milestones of amounts 3 and 2. -/
def sA : Sys := txRun envW sInit (.create 3 [3, 2] ["a", "b"])

/-- Project 0 funded by donor 7 with exactly 5. -/
def sB : Sys := txRun envW sA (.donate 7 0 5)

/-- Milestone 0 of project 0 verified and paid. -/
def sC : Sys := txRun envW sB (.verify 1 0 0)

/-- Milestone 1 (final) of project 0 verified and paid; certificate minted. -/
def sD : Sys := txRun envW sC (.verify 1 0 1)

/-- A further project created after completion of project 0. -/
def sE : Sys := txRun envW sD (.create 4 [1] ["c"])

/-- Project 1 (creator 4, milestones of amounts 2 and 9) created on top of
the funded-but-unverified state sB; project 1 itself is never funded. -/
def sF : Sys := txRun envW sB (.create 4 [2, 9] ["x", "y"])

/-! ### The claims -/

/-- Claim C1: if the value transfer to project.creator inside the internal
release step fails, the entire verifyMilestone call aborts with no state
change: the milestone remains Pending (the Verified write made earlier in
the same call is rolled back), it is not marked Paid, and no FundsReleased
event is emitted. -/
theorem C1_transfer_failure_reverts (env : Env) (s : Sys) (sender pid idx : Nat)
    (hsend : sender = s.escrow.owner)
    (hlock : s.escrow.locked = false)
    (hcre : (s.escrow.projects pid).creator ≠ 0)
    (hidx : idx < (s.escrow.projects pid).milestones.length)
    (hpend : mstate s pid idx = .Pending)
    (hfail : ¬(env.acceptsEth (s.escrow.projects pid).creator = true ∧
      ((s.escrow.projects pid).milestones.getD idx mdefault).amount ≤
        s.escrow.balance)) :
    verifyMilestone env s sender pid idx = .error "Fund transfer failed." ∧
    txRun env s (.verify sender pid idx) = s ∧
    mstate (txRun env s (.verify sender pid idx)) pid idx = .Pending ∧
    (txRun env s (.verify sender pid idx)).events = s.events := by
  have he := verify_fail_transfer hsend hlock hcre hidx hpend hfail
  have ht : txRun env s (.verify sender pid idx) = s :=
    txRun_of_error (show step env s (.verify sender pid idx) = .error _ from he)
  exact ⟨he, ht, by rw [ht]; exact hpend, by rw [ht]⟩

/-- Witness for C1: on the funded two-milestone project, with a creator that
refuses the transfer, verifyMilestone reverts and the state is unchanged. -/
theorem C1_transfer_failure_reverts_witness :
    verifyMilestone envFailEth sB 1 0 0 = .error "Fund transfer failed." ∧
    txRun envFailEth sB (.verify 1 0 0) = sB ∧
    mstate (txRun envFailEth sB (.verify 1 0 0)) 0 0 = .Pending ∧
    (txRun envFailEth sB (.verify 1 0 0)).events = sB.events :=
  C1_transfer_failure_reverts envFailEth sB 1 0 0 (by decide) (by decide)
    (by decide) (by decide) (by decide) (by decide)

/-- Claim C3: for every existing project, donate succeeds iff the attached
value exactly equals the project totalAmount and no donor is yet recorded;
on success it records the caller as donor and sets fundsRaised to the
deposited value; otherwise it rejects with no state change. -/
theorem C3_donate_iff (s : Sys) (sender pid value : Nat)
    (hex : (s.escrow.projects pid).creator ≠ 0)
    (hlock : s.escrow.locked = false) :
    ((∃ s1, donate s sender pid value = .ok s1) ↔
      ((s.escrow.projects pid).donor = 0 ∧
       value = (s.escrow.projects pid).totalAmount)) ∧
    (∀ s1, donate s sender pid value = .ok s1 →
      (s1.escrow.projects pid).donor = sender ∧
      (s1.escrow.projects pid).fundsRaised = value) ∧
    (¬((s.escrow.projects pid).donor = 0 ∧
        value = (s.escrow.projects pid).totalAmount) →
      ∀ env, txRun env s (.donate sender pid value) = s) := by
  refine ⟨⟨fun ⟨s1, h⟩ => ?_, fun ⟨hdon, hval⟩ => ⟨_, donate_run hlock hex hdon hval⟩⟩,
    fun s1 h => ?_, fun hno env => ?_⟩
  · obtain ⟨-, -, hdon, hval, -⟩ := donate_ok h
    exact ⟨hdon, hval⟩
  · obtain ⟨-, -, -, -, hs1⟩ := donate_ok h
    subst hs1
    constructor
    · simp [setProject_projects]
    · simp [setProject_projects]
  · obtain ⟨e, he⟩ := error_of_not_ok
      (fun s1 (hok : donate s sender pid value = .ok s1) =>
        absurd ⟨(donate_ok hok).2.2.1, (donate_ok hok).2.2.2.1⟩ hno)
    exact txRun_of_error (show step env s (.donate sender pid value) = .error e from he)

/-- Witness for C3: on the freshly created unfunded project, donate with the
exact total is possible and its characterisation holds. -/
theorem C3_donate_iff_witness :
    (∃ s1, donate sA 7 0 5 = .ok s1) ↔
      ((sA.escrow.projects 0).donor = 0 ∧ 5 = (sA.escrow.projects 0).totalAmount) :=
  (C3_donate_iff sA 7 0 5 (by decide) (by decide)).1

/-- Claim C6: for every input with a nonzero beneficiary, equal
non-zero-length amount and description arrays, and every amount strictly
positive, createProject succeeds and the new project totalAmount equals the
exact sum of the input milestone amounts, with every milestone initialised
to Pending and a fresh id assigned; violating any of these preconditions
rejects the call with no state change. -/
theorem C6_createProject_spec (s : Sys) (ngo : Nat) (amts : List Nat)
    (descs : List String) :
    ((ngo ≠ 0 ∧ amts.length = descs.length ∧ amts.length ≠ 0 ∧
        ∀ a ∈ amts, 0 < a) →
      ∃ s1, createProject s ngo amts descs = .ok s1 ∧
        s1.escrow.projectCounter = s.escrow.projectCounter + 1 ∧
        (s1.escrow.projects s.escrow.projectCounter).projectId =
          s.escrow.projectCounter ∧
        (s1.escrow.projects s.escrow.projectCounter).creator = ngo ∧
        (s1.escrow.projects s.escrow.projectCounter).totalAmount = amts.sum ∧
        (∀ m ∈ (s1.escrow.projects s.escrow.projectCounter).milestones,
          m.state = .Pending) ∧
        (s1.escrow.projects s.escrow.projectCounter).milestones.length =
          amts.length) ∧
    (¬(ngo ≠ 0 ∧ amts.length = descs.length ∧ amts.length ≠ 0 ∧
        ∀ a ∈ amts, 0 < a) →
      ∀ env, txRun env s (.create ngo amts descs) = s) := by
  constructor
  · rintro ⟨h1, h2, h3, h4⟩
    refine ⟨_, create_run h1 h2 h3 h4, by simp, by simp [setProject_projects],
      by simp [setProject_projects], by simp [setProject_projects], ?_, ?_⟩
    · intro m hm
      refine zip_pending amts descs m ?_
      simpa [setProject_projects] using hm
    · simp [setProject_projects, List.length_zipWith, h2]
  · intro hno env
    obtain ⟨e, he⟩ := error_of_not_ok
      (fun s1 (hok : createProject s ngo amts descs = .ok s1) =>
        absurd ⟨(create_ok hok).1, (create_ok hok).2.1, (create_ok hok).2.2.1,
          (create_ok hok).2.2.2.1⟩ hno)
    exact txRun_of_error (show step env s (.create ngo amts descs) = .error e from he)

/-- Witness for C6: a valid creation input on the deployed system. -/
theorem C6_createProject_spec_witness :
    ∃ s1, createProject sInit 3 [3, 2] ["a", "b"] = .ok s1 ∧
      s1.escrow.projectCounter = sInit.escrow.projectCounter + 1 ∧
      (s1.escrow.projects sInit.escrow.projectCounter).projectId =
        sInit.escrow.projectCounter ∧
      (s1.escrow.projects sInit.escrow.projectCounter).creator = 3 ∧
      (s1.escrow.projects sInit.escrow.projectCounter).totalAmount = [3, 2].sum ∧
      (∀ m ∈ (s1.escrow.projects sInit.escrow.projectCounter).milestones,
        m.state = .Pending) ∧
      (s1.escrow.projects sInit.escrow.projectCounter).milestones.length =
        [3, 2].length :=
  (C6_createProject_spec sInit 3 [3, 2] ["a", "b"]).1 (by decide)

/-- Claim C8: for every caller other than the single designated verifier
(the owner), a verifyMilestone call is rejected and leaves all project and
milestone state unchanged. -/
theorem C8_verify_only_owner (env : Env) (s : Sys) (sender pid idx : Nat)
    (h : sender ≠ s.escrow.owner) :
    verifyMilestone env s sender pid idx = .error "OwnableUnauthorizedAccount" ∧
    txRun env s (.verify sender pid idx) = s := by
  have he : verifyMilestone env s sender pid idx =
      .error "OwnableUnauthorizedAccount" := verify_fail_not_owner h
  exact ⟨he,
    txRun_of_error (show step env s (.verify sender pid idx) = .error _ from he)⟩

/-- Witness for C8: address 5 is not the owner and is rejected. -/
theorem C8_verify_only_owner_witness :
    verifyMilestone envW sB 5 0 0 = .error "OwnableUnauthorizedAccount" ∧
    txRun envW sB (.verify 5 0 0) = sB :=
  C8_verify_only_owner envW sB 5 0 0 (by decide)

/-- Claim C10: verifyMilestone imposes no funding precondition: for a
project whose donor is still unset and whose fundsRaised is 0, an owner
call on a Pending non-final milestone succeeds whenever the overall
contract balance covers the milestone amount, paying the creator of that
project out of funds deposited for other projects. -/
theorem C10_no_funding_precondition (env : Env) (s : Sys) (sender pid idx : Nat)
    (hsend : sender = s.escrow.owner)
    (hlock : s.escrow.locked = false)
    (hcre : (s.escrow.projects pid).creator ≠ 0)
    (hdonor : (s.escrow.projects pid).donor = 0)
    (hfund : (s.escrow.projects pid).fundsRaised = 0)
    (hidx : idx + 1 < (s.escrow.projects pid).milestones.length)
    (hpend : mstate s pid idx = .Pending)
    (heth : env.acceptsEth (s.escrow.projects pid).creator = true)
    (hbal : ((s.escrow.projects pid).milestones.getD idx mdefault).amount ≤
      s.escrow.balance) :
    ∃ s1, verifyMilestone env s sender pid idx = .ok s1 ∧
      s1.escrow.balance = s.escrow.balance -
        ((s.escrow.projects pid).milestones.getD idx mdefault).amount ∧
      (s1.escrow.projects pid).fundsRaised = 0 ∧
      (s1.escrow.projects pid).donor = 0 ∧
      mstate s1 pid idx = .Paid := by
  have hidx1 : idx < (s.escrow.projects pid).milestones.length := by omega
  obtain ⟨s1, hok⟩ := verify_run hsend hlock hcre hidx1 hpend heth hbal
    (fun hf => absurd hf (by omega))
  have V := verify_ok hok
  refine ⟨s1, hok, V.2.2.2.2.2.2.2.2.2.2.1, ?_, ?_, ?_⟩
  · rw [V.2.2.2.2.2.2.2.2.2.2.2.2.2.2.2.1]
    exact hfund
  · rw [V.2.2.2.2.2.2.2.2.2.2.2.2.2.1]
    exact hdonor
  · unfold mstate
    rw [V.2.2.2.2.2.2.2.2.2.2.2.2.2.2.2.2.1, getD_set_self _ _ _ _ hidx1]

/-- Witness for C10: project 1 is created with two milestones but never
funded, while project 0 has deposited 5 into the contract; the owner can
still verify milestone 0 of project 1 and its creator is paid from those
funds. -/
theorem C10_no_funding_precondition_witness :
    ∃ s1, verifyMilestone envW sF 1 1 0 = .ok s1 ∧
      s1.escrow.balance = sF.escrow.balance -
        ((sF.escrow.projects 1).milestones.getD 0 mdefault).amount ∧
      (s1.escrow.projects 1).fundsRaised = 0 ∧
      (s1.escrow.projects 1).donor = 0 ∧
      mstate s1 1 0 = .Paid :=
  C10_no_funding_precondition envW sF 1 1 0 (by decide) (by decide) (by decide)
    (by decide) (by decide) (by decide) (by decide) (by decide) (by decide)

/-- Claim C4: verifyMilestone enforces no ordering across milestones, and
"final milestone" is decided purely by the index being equal to length - 1:
verifying the last-index milestone succeeds, sets isComplete and mints the
certificate even when every earlier milestone is still Pending. -/
theorem C4_no_ordering (env : Env) (s : Sys) (sender pid idx : Nat)
    (hsend : sender = s.escrow.owner)
    (hlock : s.escrow.locked = false)
    (hcre : (s.escrow.projects pid).creator ≠ 0)
    (hlast : idx + 1 = (s.escrow.projects pid).milestones.length)
    (hearlier : ∀ j, j < idx → mstate s pid j = .Pending)
    (hpend : mstate s pid idx = .Pending)
    (heth : env.acceptsEth (s.escrow.projects pid).creator = true)
    (hbal : ((s.escrow.projects pid).milestones.getD idx mdefault).amount ≤
      s.escrow.balance)
    (hauth : env.escrowAddr = s.token.authority)
    (hdonor : (s.escrow.projects pid).donor ≠ 0)
    (hminted : s.token.minted pid = none)
    (hnft : env.acceptsNft (s.escrow.projects pid).donor = true) :
    ∃ s1, verifyMilestone env s sender pid idx = .ok s1 ∧
      (s1.escrow.projects pid).isComplete = true ∧
      s1.token.minted pid = some ((s.escrow.projects pid).donor) := by
  have hidx : idx < (s.escrow.projects pid).milestones.length := by omega
  obtain ⟨s1, hok⟩ := verify_run hsend hlock hcre hidx hpend heth hbal
    (fun _ => ⟨hauth, hdonor, hminted, hnft⟩)
  have V := verify_ok hok
  have hf : idx = (s.escrow.projects pid).milestones.length - 1 := by omega
  refine ⟨s1, hok, ?_, ?_⟩
  · rw [V.2.2.2.2.2.2.2.2.2.2.2.2.2.2.2.2.2.1, if_pos hf]
  · rcases V.2.2.2.2.2.2.2.2.2.2.2.2.2.2.2.2.2.2.2 with ⟨hne, -⟩ | ⟨-, hrest⟩
    · exact absurd hf hne
    · rw [hrest.2.2.2.2.2]
      simp

/-- Witness for C4: on the funded two-milestone project, milestone 1 (the
last) is verified first while milestone 0 is still Pending; the project
completes and the certificate is minted to the donor. -/
theorem C4_no_ordering_witness :
    ∃ s1, verifyMilestone envW sB 1 0 1 = .ok s1 ∧
      (s1.escrow.projects 0).isComplete = true ∧
      s1.token.minted 0 = some ((sB.escrow.projects 0).donor) :=
  C4_no_ordering envW sB 1 0 1 (by decide) (by decide) (by decide) (by decide)
    (by
      intro j hj
      have hj0 : j = 0 := by omega
      subst hj0
      decide)
    (by decide) (by decide) (by decide) (by decide) (by decide) (by decide)
    (by decide)

/-- Claim C2: after a successful verifyMilestone call on the last milestone
index of a project, the project isComplete flag is true and the certificate
for that project id exists, owned by the recorded donor of the project; and no
successful operation can ever mint a second certificate for the same
project id (a recorded certificate entry is preserved by every successful
step). -/
theorem C2_certificate_unique (pid : Nat) :
    (∀ env s sender idx s1, verifyMilestone env s sender pid idx = .ok s1 →
      idx = (s.escrow.projects pid).milestones.length - 1 →
      (s1.escrow.projects pid).isComplete = true ∧
      s1.token.minted pid = some ((s.escrow.projects pid).donor)) ∧
    (∀ env s op s1 a, s.token.minted pid = some a → step env s op = .ok s1 →
      s1.token.minted pid = some a) := by
  constructor
  · intro env s sender idx s1 hok hlast
    have V := verify_ok hok
    constructor
    · rw [V.2.2.2.2.2.2.2.2.2.2.2.2.2.2.2.2.2.1, if_pos hlast]
    · rcases V.2.2.2.2.2.2.2.2.2.2.2.2.2.2.2.2.2.2.2 with ⟨hne, -⟩ | ⟨-, hrest⟩
      · exact absurd hlast hne
      · rw [hrest.2.2.2.2.2]
        simp
  · intro env s op s1 a hmint hstep
    cases op with
    | create ngo amts descs =>
      obtain ⟨-, -, -, -, hs1⟩ := create_ok hstep
      subst hs1
      simpa using hmint
    | donate sender pid2 value =>
      obtain ⟨-, -, -, -, hs1⟩ := donate_ok hstep
      subst hs1
      simpa using hmint
    | verify sender pid2 idx2 =>
      have V := verify_ok (show verifyMilestone env s sender pid2 idx2 = .ok s1
        from hstep)
      rcases V.2.2.2.2.2.2.2.2.2.2.2.2.2.2.2.2.2.2.2 with ⟨-, htok⟩ |
        ⟨-, -, -, hm0, -, -, hfun⟩
      · rw [htok]
        exact hmint
      · rw [hfun]
        by_cases hpp : pid = pid2
        · subst hpp
          rw [hmint] at hm0
          exact absurd hm0 (by simp)
        · simpa [hpp] using hmint
    | mint caller recipient tokenId uri =>
      simp only [step] at hstep
      split at hstep
      · next t hm =>
        have h1 := (Except.ok.injEq _ _).mp hstep
        subst h1
        obtain ⟨-, -, hm0, -, -, hfun⟩ := safeMint_ok hm
        show t.minted pid = some a
        rw [hfun]
        by_cases hpt : pid = tokenId
        · subst hpt
          rw [hmint] at hm0
          exact absurd hm0 (by simp)
        · simpa [hpt] using hmint
      · exact absurd hstep (by simp)
    | transferAuth caller newOwner =>
      simp only [step] at hstep
      split at hstep
      · next t hm =>
        have h1 := (Except.ok.injEq _ _).mp hstep
        subst h1
        obtain ⟨-, -, ht⟩ := transferAuth_ok hm
        subst ht
        simpa using hmint
      · exact absurd hstep (by simp)

/-- Witness for C2: the final-milestone verification on the concrete run
completes project 0 and mints its certificate to donor 7, and a later
successful operation leaves that certificate entry unchanged. -/
theorem C2_certificate_unique_witness :
    ((sD.escrow.projects 0).isComplete = true ∧
      sD.token.minted 0 = some ((sC.escrow.projects 0).donor)) ∧
    sE.token.minted 0 = some 7 :=
  ⟨(C2_certificate_unique 0).1 envW sC 1 1 sD rfl (by decide),
   (C2_certificate_unique 0).2 envW sD (.create 4 [1] ["c"]) sE 7 (by decide) rfl⟩

/-- Claim C7: once mint authority is held by the escrow, safeMint rejects
every caller other than the authority holder, and the only operation that
changes the certificate map is a verifyMilestone call on the final
milestone index (no external caller can be the escrow contract itself). -/
theorem C7_mint_gated (env : Env) (s : Sys)
    (hauth : s.token.authority = env.escrowAddr) :
    (∀ caller recipient tokenId uri t1, caller ≠ env.escrowAddr →
      safeMint env s.token caller recipient tokenId uri ≠ .ok t1) ∧
    (∀ op s1, step env s op = .ok s1 →
      (∀ caller recipient tokenId uri, op = .mint caller recipient tokenId uri →
        caller ≠ env.escrowAddr) →
      s1.token.minted = s.token.minted ∨
      ∃ sender pid idx, op = .verify sender pid idx ∧
        idx = (s.escrow.projects pid).milestones.length - 1 ∧
        s1.token.minted pid = some ((s.escrow.projects pid).donor)) := by
  constructor
  · intro caller recipient tokenId uri t1 hc hok
    exact hc ((safeMint_ok hok).1.trans hauth)
  · intro op s1 hstep hnc
    cases op with
    | create ngo amts descs =>
      obtain ⟨-, -, -, -, hs1⟩ := create_ok hstep
      subst hs1
      left
      simp
    | donate sender pid value =>
      obtain ⟨-, -, -, -, hs1⟩ := donate_ok hstep
      subst hs1
      left
      simp
    | verify sender pid idx =>
      have V := verify_ok (show verifyMilestone env s sender pid idx = .ok s1
        from hstep)
      rcases V.2.2.2.2.2.2.2.2.2.2.2.2.2.2.2.2.2.2.2 with ⟨-, htok⟩ |
        ⟨hfin, -, -, -, -, -, hfun⟩
      · left
        rw [htok]
      · right
        refine ⟨sender, pid, idx, rfl, hfin, ?_⟩
        rw [hfun]
        simp
    | mint caller recipient tokenId uri =>
      exfalso
      simp only [step] at hstep
      split at hstep
      · next t hm =>
        exact hnc caller recipient tokenId uri rfl
          ((safeMint_ok hm).1.trans hauth)
      · exact absurd hstep (by simp)
    | transferAuth caller newOwner =>
      simp only [step] at hstep
      split at hstep
      · next t hm =>
        have h1 := (Except.ok.injEq _ _).mp hstep
        subst h1
        obtain ⟨-, -, ht⟩ := transferAuth_ok hm
        subst ht
        left
        rfl
      · exact absurd hstep (by simp)

/-- Witness for C7: with mint authority at the escrow address, a mint
attempt by address 9 can never succeed. -/
theorem C7_mint_gated_witness :
    safeMint envW sB.token 9 7 0 "u" ≠ .ok sB.token :=
  (C7_mint_gated envW sB (by decide)).1 9 7 0 "u" sB.token (by decide)

/-- Claim C9: any nested call into donate or into verifyMilestone issued
while one of those guarded entry points is still executing (the guard is
held, in particular at the external value transfer point of the release
path) is rejected, and the lock is free again after the outer call
completes on both the success path and the failure (revert) path. -/
theorem C9_reentrancy_guard (env : Env) (s : Sys) (sender pid idx : Nat) :
    (∀ s2 : Sys, s2.escrow.locked = true →
      (∀ sender2 pid2 value2, donate s2 sender2 pid2 value2 =
        .error "ReentrancyGuard: reentrant call") ∧
      (∀ sender2 pid2 idx2, ∃ e,
        verifyMilestone env s2 sender2 pid2 idx2 = .error e)) ∧
    (verifiedMidState s pid idx).escrow.locked = true ∧
    (∀ s1, verifyMilestone env s sender pid idx = .ok s1 →
      s1.escrow.locked = false) ∧
    (∀ s1 value, donate s sender pid value = .ok s1 →
      s1.escrow.locked = false) ∧
    (s.escrow.locked = false →
      ∀ e, step env s (.verify sender pid idx) = .error e →
        (txRun env s (.verify sender pid idx)).escrow.locked = false) ∧
    (s.escrow.locked = false →
      ∀ value e, step env s (.donate sender pid value) = .error e →
        (txRun env s (.donate sender pid value)).escrow.locked = false) := by
  refine ⟨fun s2 h2 => ⟨fun sender2 pid2 value2 => donate_fail_locked h2,
      fun sender2 pid2 idx2 => verify_fail_locked h2⟩,
    mid_locked s pid idx,
    fun s1 hok => (verify_ok hok).2.2.2.2.2.2.2.2.2.1,
    fun s1 value hok => ?_, fun hl e he => ?_, fun hl value e he => ?_⟩
  · obtain ⟨hlock, -, -, -, hs1⟩ := donate_ok hok
    subst hs1
    simpa using hlock
  · rw [txRun_of_error he]
    exact hl
  · rw [txRun_of_error he]
    exact hl

/-- Witness for C9: the state at the external transfer of the release path
on the concrete run holds the lock. -/
theorem C9_reentrancy_guard_witness :
    (verifiedMidState sB 0 0).escrow.locked = true :=
  (C9_reentrancy_guard envW sB 1 0 0).2.1

/-- Claim C5: from any reachable state, every successful step moves each
milestone state only forward along Pending, Verified, Paid; a successful
verifyMilestone finds the milestone Pending, holds it Verified at the
release point, leaves it Paid, and a second verifyMilestone call on the
same milestone can never succeed again. -/
theorem C5_milestone_forward (o a : Address) (env : Env) (s : Sys) (op : Op)
    (s1 : Sys) (hreach : Reachable o a s) (hstep : step env s op = .ok s1) :
    (∀ pid idx, (mstate s pid idx).rank ≤ (mstate s1 pid idx).rank) ∧
    (∀ sender pid idx, op = .verify sender pid idx →
      mstate s pid idx = .Pending ∧
      mstate (verifiedMidState s pid idx) pid idx = .Verified ∧
      mstate s1 pid idx = .Paid ∧
      ∀ env2 sender2 s2, verifyMilestone env2 s1 sender2 pid idx ≠ .ok s2) := by
  have hF := reachable_fresh hreach
  constructor
  · intro pid idx
    cases op with
    | create ngo amts descs =>
      obtain ⟨-, -, -, -, hs1⟩ := create_ok hstep
      by_cases hp : pid = s.escrow.projectCounter
      · have he : s.escrow.projects pid = Project.empty :=
          hF pid (le_of_eq hp.symm)
        have h0 : mstate s pid idx = .Pending := by
          unfold mstate
          rw [he]
          simp [Project.empty, mdefault]
        rw [h0]
        exact Nat.zero_le _
      · have heq : mstate s1 pid idx = mstate s pid idx := by
          rw [hs1]
          unfold mstate
          simp [setProject_projects, hp]
        rw [heq]
    | donate sender pid2 value =>
      obtain ⟨-, -, -, -, hs1⟩ := donate_ok hstep
      have heq : mstate s1 pid idx = mstate s pid idx := by
        rw [hs1]
        unfold mstate
        by_cases hp : pid = pid2
        · subst hp
          simp [setProject_projects]
        · simp [setProject_projects, hp]
      rw [heq]
    | verify sender pid2 idx2 =>
      have V := verify_ok (show verifyMilestone env s sender pid2 idx2 = .ok s1
        from hstep)
      by_cases hp : pid = pid2
      · subst hp
        by_cases hi : idx = idx2
        · subst hi
          have hP : mstate s1 pid idx = .Paid := by
            unfold mstate
            rw [V.2.2.2.2.2.2.2.2.2.2.2.2.2.2.2.2.1,
              getD_set_self _ _ _ _ V.2.2.2.1]
          rw [hP]
          exact rank_le_two _
        · have heq : mstate s1 pid idx = mstate s pid idx := by
            unfold mstate
            rw [V.2.2.2.2.2.2.2.2.2.2.2.2.2.2.2.2.1,
              getD_set_ne _ _ _ _ _ (fun he => hi he.symm)]
          rw [heq]
      · have heq : mstate s1 pid idx = mstate s pid idx := by
          unfold mstate
          rw [V.2.2.2.2.2.2.2.2.2.2.2.1 pid hp]
        rw [heq]
    | mint caller recipient tokenId uri =>
      simp only [step] at hstep
      split at hstep
      · next t hm =>
        have h1 := (Except.ok.injEq _ _).mp hstep
        subst h1
        exact Nat.le_refl _
      · exact absurd hstep (by simp)
    | transferAuth caller newOwner =>
      simp only [step] at hstep
      split at hstep
      · next t hm =>
        have h1 := (Except.ok.injEq _ _).mp hstep
        subst h1
        exact Nat.le_refl _
      · exact absurd hstep (by simp)
  · intro sender pid idx heq
    subst heq
    have V := verify_ok (show verifyMilestone env s sender pid idx = .ok s1
      from hstep)
    have hP : mstate s1 pid idx = .Paid := by
      unfold mstate
      rw [V.2.2.2.2.2.2.2.2.2.2.2.2.2.2.2.2.1, getD_set_self _ _ _ _ V.2.2.2.1]
    refine ⟨V.2.2.2.2.1, ?_, hP, ?_⟩
    · unfold mstate
      rw [mid_projects_self]
      show (((s.escrow.projects pid).milestones.set idx
        { (s.escrow.projects pid).milestones.getD idx mdefault with
          state := .Verified }).getD idx mdefault).state = .Verified
      rw [getD_set_self _ _ _ _ V.2.2.2.1]
    · intro env2 sender2 s2 hok2
      have hpend2 := (verify_ok hok2).2.2.2.2.1
      rw [hP] at hpend2
      exact absurd hpend2 (by decide)

/-- Witness for C5: the verification of milestone 0 of the funded project
is a successful step from a reachable state; the milestone goes Pending to
Verified to Paid and a second verification of it can never succeed. -/
theorem C5_milestone_forward_witness :
    (∀ pid idx, (mstate sB pid idx).rank ≤ (mstate sC pid idx).rank) ∧
    (∀ sender pid idx, Op.verify 1 0 0 = .verify sender pid idx →
      mstate sB pid idx = .Pending ∧
      mstate (verifiedMidState sB pid idx) pid idx = .Verified ∧
      mstate sC pid idx = .Paid ∧
      ∀ env2 sender2 s2, verifyMilestone env2 sC sender2 pid idx ≠ .ok s2) :=
  C5_milestone_forward 1 2 envW sB (.verify 1 0 0) sC
    (Reachable.next sA sB envW (.donate 7 0 5)
      (Reachable.next sInit sA envW (.create 3 [3, 2] ["a", "b"])
        Reachable.init rfl) rfl)
    rfl

end ImpactChain
